import Mathlib

/-!
# Verification of the configlet track reconciliation engine

Shallow embedding of the two Go source files of the repository (the
track reconciliation file and the configuration loader file) together
with proofs about the six consistency queries of the `Track` type and
the manifest loader.

I/O is factored out: every Go function that reads the filesystem is
modelled as a pure Lean function taking the outcome of those reads as an
explicit argument (config-load results, `os.Stat` results, directory
listings, file trees).  Go's `(value, error)` return pairs are modelled
as Lean pairs `value × Option error`.  Go's `map[string]struct{}` sets
are modelled as `Finset String`; a Go slice built by iterating such a map
has unspecified element order, so those results are modelled as the
`Finset` of their elements, while slices with a specified order
(`DuplicateSlugs` is sorted, `ForegoneViolations` follows the `foregone`
sequence) are modelled as `List String`.
-/

/-- Errors produced by `ioutil.ReadFile`, `os.Stat` and `ioutil.ReadDir`.
`os.IsNotExist err` is modelled as `err = .notExist`. -/
inductive FsError where
  | notExist
  | other (msg : String)
deriving DecidableEq, Repr

/-- Errors produced by `Load`: a read failure propagated as-is, or a parse
failure wrapping the file path and the JSON decoder message
(`fmt.Errorf("Unable to parse config: %s -- %s", file, err.Error())`). -/
inductive ConfigError where
  | readError (e : FsError)
  | parseError (file : String) (msg : String)
deriving DecidableEq, Repr

/-- The error component of a `Track` query's `(result, error)` return:
a propagated config-load error, a filesystem error, or a
`regexp.Compile` failure. -/
inductive QueryError where
  | config (e : ConfigError)
  | fs (e : FsError)
  | pattern (msg : String)
deriving DecidableEq, Repr

/-- Go struct `Exercise` (metadata about one implemented exercise).
The untyped `UnlockedBy interface{}` field is never read by any check and
is omitted from the model. -/
structure Exercise where
  Core : Bool := false
  Deprecated : Bool := false
  Difficulty : Nat := 0
  Topics : List String := []
  UUID : String := ""
  Slug : String := ""
deriving DecidableEq, Repr

/-- Go struct `Config`: an Exercism track configuration.  The private
`path` field is never read and is omitted. -/
structure Config where
  Active : Bool := false
  Deprecated : List String := []
  Exercises : List Exercise := []
  Foregone : List String := []
  IgnorePattern : String := ""
  Language : String := ""
  Repository : String := ""
  Slug : String := ""
  SolutionPattern : String := ""
deriving DecidableEq, Repr

/-- Go `NewConfig`: a `Config` whose only non-zero default is
`SolutionPattern = "[Ee]xample"`. -/
def NewConfig : Config :=
  { SolutionPattern := "[Ee]xample" }

/-- Go method `Config.Slugs`: the exercise identifiers listed in the
`exercises` sequence, in order (the `len > 0` guard in the source is a
no-op: both branches return the mapped list, which is `nil` when
`Exercises` is empty). -/
def Config.Slugs (c : Config) : List String :=
  c.Exercises.map Exercise.Slug

/-- A well-formed manifest JSON document matching the expected shape:
each top-level field is either absent (`none`) or present with a value of
the expected type.  This is the input on which `json.Unmarshal` into a
`Config` succeeds. -/
structure ConfigDoc where
  active : Option Bool := none
  deprecated : Option (List String) := none
  exercises : Option (List Exercise) := none
  foregone : Option (List String) := none
  ignorePattern : Option String := none
  language : Option String := none
  repository : Option String := none
  slug : Option String := none
  solutionPattern : Option String := none
deriving DecidableEq, Repr

/-- `json.Unmarshal(bytes, &c)` on a well-formed document: a field absent
from the document leaves the corresponding field of `c` unchanged (this is
the documented behaviour of `encoding/json` for missing object keys, which
is what lets `NewConfig`'s defaults survive). -/
def unmarshalConfig (d : ConfigDoc) (c : Config) : Config :=
  { Active := d.active.getD c.Active
    Deprecated := d.deprecated.getD c.Deprecated
    Exercises := d.exercises.getD c.Exercises
    Foregone := d.foregone.getD c.Foregone
    IgnorePattern := d.ignorePattern.getD c.IgnorePattern
    Language := d.language.getD c.Language
    Repository := d.repository.getD c.Repository
    Slug := d.slug.getD c.Slug
    SolutionPattern := d.solutionPattern.getD c.SolutionPattern }

/-- The outcome of `ioutil.ReadFile` + `json.Unmarshal` on the manifest
file: the read fails, or the content is not a well-formed document of the
expected shape, or it is a well-formed document. -/
inductive LoadInput where
  | readFailure (e : FsError)
  | malformed (msg : String)
  | doc (d : ConfigDoc)
deriving DecidableEq, Repr

/-- Go `Load`: start from `NewConfig`, return the read error unchanged on
a read failure, wrap a parse failure with the file path, and otherwise
unmarshal the document over the defaults. -/
def Load (file : String) (input : LoadInput) : Config × Option ConfigError :=
  match input with
  | .readFailure e => (NewConfig, some (.readError e))
  | .malformed msg => (NewConfig, some (.parseError file msg))
  | .doc d => (unmarshalConfig d NewConfig, none)

/-- Go `isHiddenDir`: despite its name it returns true exactly when the
name does NOT begin with a dot (`name[0] != 46`; byte 46 is the first
byte of a name iff its first character is the ASCII dot).  The Go code
would panic on an empty name; directory entry names are never empty, and
the model returns true there (`String.front "" ≠ '.'`). -/
def isHiddenDir (name : String) : Bool :=
  name.front ≠ '.'

/-- One entry returned by `ioutil.ReadDir`: the base name and whether it
is a directory. -/
structure DirInfo where
  name : String
  isDir : Bool
deriving DecidableEq, Repr

/-- The filesystem reads performed by `Track.Dirs` on the
`<root>/exercises` directory: the `os.Stat` outcome and the
`ioutil.ReadDir` outcome. -/
structure ExercisesDirFs where
  stat : Except FsError Unit
  entries : Except FsError (List DirInfo)
deriving Repr

/-- Go method `Track.Dirs`: `os.IsNotExist` from `os.Stat` yields the
empty set with no error; any other stat error, or any `ReadDir` error, is
returned with an empty set; otherwise keep every entry that is a
directory, is not named `"exercises"`, and is not dot-prefixed.  The Go
result is a `map[string]struct{}`, modelled as a `Finset`. -/
def Track.Dirs (fs : ExercisesDirFs) : Finset String × Option QueryError :=
  match fs.stat with
  | .error e =>
      if e = .notExist then (∅, none) else (∅, some (.fs e))
  | .ok _ =>
      match fs.entries with
      | .error e => (∅, some (.fs e))
      | .ok infos =>
          (((infos.filter fun i => i.isDir && i.name ≠ "exercises" &&
              isHiddenDir i.name).map DirInfo.name).toFinset, none)

/-- Go method `Track.Problems`: the set of exercise slugs from the
config, or an empty set plus the propagated load error.  The argument is
the outcome of `t.Config()`. -/
def Track.Problems (cfg : Config × Option ConfigError) :
    Finset String × Option QueryError :=
  match cfg.2 with
  | some e => (∅, some (.config e))
  | none => (cfg.1.Slugs.toFinset, none)

/-- Go method `Track.Slugs`: every slug mentioned in the config — the
exercise slugs, the `deprecated` sequence and the `foregone` sequence —
inserted into one `map[string]struct{}`, modelled as the `Finset` of the
concatenation. -/
def Track.Slugs (cfg : Config × Option ConfigError) :
    Finset String × Option QueryError :=
  match cfg.2 with
  | some e => (∅, some (.config e))
  | none => ((cfg.1.Slugs ++ cfg.1.Deprecated ++ cfg.1.Foregone).toFinset, none)

/-- Go method `Track.MissingProblems`: `Dirs` first, then `Problems`
(each propagating its error with an empty result), then the problems with
no directory of the same name.  The Go slice is built by iterating the
`problems` map, so its order is unspecified and the result is modelled as
a `Finset`. -/
def Track.MissingProblems (cfg : Config × Option ConfigError)
    (fs : ExercisesDirFs) : Finset String × Option QueryError :=
  match Track.Dirs fs with
  | (_, some e) => (∅, some e)
  | (dirs, none) =>
      match Track.Problems cfg with
      | (_, some e) => (∅, some e)
      | (problems, none) => (problems.filter (fun p => p ∉ dirs), none)

/-- Go method `Track.UnconfiguredProblems`: `Dirs` first, then `Slugs`
(each propagating its error with an empty result), then the directories
not mentioned anywhere in the config.  Built by iterating the `dirs` map,
so modelled as a `Finset`. -/
def Track.UnconfiguredProblems (cfg : Config × Option ConfigError)
    (fs : ExercisesDirFs) : Finset String × Option QueryError :=
  match Track.Dirs fs with
  | (_, some e) => (∅, some e)
  | (dirs, none) =>
      match Track.Slugs cfg with
      | (_, some e) => (∅, some e)
      | (slugs, none) => (dirs.filter (fun d => d ∉ slugs), none)

/-- Go method `Track.ForegoneViolations`: config first, then `Dirs`
(each propagating its error with an empty result), then the `foregone`
slugs that do have a directory, in the order of the `foregone`
sequence. -/
def Track.ForegoneViolations (cfg : Config × Option ConfigError)
    (fs : ExercisesDirFs) : List String × Option QueryError :=
  match cfg.2 with
  | some e => ([], some (.config e))
  | none =>
      match Track.Dirs fs with
      | (_, some e) => ([], some e)
      | (dirs, none) => (cfg.1.Foregone.filter (fun p => p ∈ dirs), none)

/-- Go method `Track.DuplicateSlugs`: build a count map over the
concatenation of the exercise slugs, `deprecated` and `foregone`; keep
the keys whose count exceeds one; `sort.Strings` the result.  The count
map's keys are the deduplicated concatenation and the key order before
sorting is unspecified, so the Go result equals the sorted filtered
deduplication (`sort.Strings` is bytewise ascending, which on UTF-8
agrees with Lean's codepoint-lexicographic `≤` on `String`). -/
def Track.DuplicateSlugs (cfg : Config × Option ConfigError) :
    List String × Option QueryError :=
  match cfg.2 with
  | some e => ([], some (.config e))
  | none =>
      let all := cfg.1.Slugs ++ cfg.1.Deprecated ++ cfg.1.Foregone
      ((all.dedup.filter fun s => 1 < all.count s).mergeSort (· ≤ ·), none)

/-- A node of a successfully readable file tree under an exercise
directory: a plain file, or a subdirectory with its own entries (in
`ReadDir` order). -/
inductive FNode where
  | file (name : String)
  | dir (name : String) (children : List FNode)

/-- Go `findAllFiles` on a directory whose reads all succeed: walk the
entries in order, emitting `path/name` for a file and recursing into
`path/name` for a subdirectory (`fmt.Sprintf("%s/%s", path, name)`). -/
def findAllFiles (path : String) : List FNode → List String
  | [] => []
  | .file n :: rest => (path ++ "/" ++ n) :: findAllFiles path rest
  | .dir n children :: rest =>
      findAllFiles (path ++ "/" ++ n) children ++ findAllFiles path rest

/-- `listStarts needle l`: `needle` is an initial segment of `l`. -/
def listStarts : List Char → List Char → Bool
  | [], _ => true
  | _ :: _, [] => false
  | a :: as, b :: bs => a = b && listStarts as bs

/-- `strContains s needle`: `needle` occurs in `s` as a contiguous
substring. -/
def strContains (s needle : String) : Bool :=
  s.toList.tails.any (listStarts needle.toList)

/-- The matcher obtained by compiling the default pattern: modelled Go
`regexp` semantics for `"[Ee]xample"` — an unanchored `Find` succeeds on
a string exactly when it contains `"Example"` or `"example"`. -/
def findEeExample (s : String) : Bool :=
  strContains s "Example" || strContains s "example"

/-- Modelled `regexp.Compile` that knows the default pattern and rejects
everything else; stands for Go's compiler in concrete instances.  The
embedding's theorems quantify over an arbitrary compile function, so only
the two behaviours exercised by the claims are needed: success on
`"[Ee]xample"` and failure on an invalid pattern. -/
def goCompile (pattern : String) : Except String (String → Bool) :=
  if pattern = "[Ee]xample" then .ok findEeExample
  else .error ("error parsing regexp: " ++ pattern)

/-- Go method `Track.hasExampleFile`: reload the config (propagating its
error), compile `SolutionPattern` (returning a `.pattern` error on
failure), and otherwise report whether `r.Find` is non-empty on some file
path.  `compile` stands for `regexp.Compile`. -/
def Track.hasExampleFile (cfg : Config × Option ConfigError)
    (compile : String → Except String (String → Bool))
    (files : List String) : Bool × Option QueryError :=
  match cfg.2 with
  | some e => (false, some (.config e))
  | none =>
      match compile cfg.1.SolutionPattern with
      | .error msg => (false, some (.pattern msg))
      | .ok find => (files.any find, none)

/-- The loop body of `Track.ProblemsLackingExample` over the exercise
slugs, carrying the `issues` accumulated so far.  `dirs` is the `t.dirs`
map (Go's zero-value lookup: `""` means the slug has no resolved
directory); `fsys` gives the `findAllFiles` read outcome at a directory
path.  On a file-listing error Go executes `return issues, err`,
returning the partial accumulator; the error from `hasExampleFile` is
assigned but never checked, so only the boolean is consulted. -/
def pleLoop (cfg : Config × Option ConfigError)
    (dirs : String → String)
    (fsys : String → Except FsError (List FNode))
    (compile : String → Except String (String → Bool))
    (issues : List String) : List String → List String × Option QueryError
  | [] => (issues, none)
  | problem :: rest =>
      let path := dirs problem
      if path = "" then pleLoop cfg dirs fsys compile issues rest
      else
        match fsys path with
        | .error e => (issues, some (.fs e))
        | .ok entries =>
            let files := findAllFiles path entries
            let found := Track.hasExampleFile cfg compile files
            if found.1 then pleLoop cfg dirs fsys compile issues rest
            else pleLoop cfg dirs fsys compile (issues ++ [problem]) rest

/-- Go method `Track.ProblemsLackingExample`: on a config error return
`(nil, err)`; otherwise fold over the exercise slugs with `pleLoop`.
Within one query the config is read once here and again inside
`hasExampleFile`; the file is unchanged during the query, so both reads
yield the same `cfg`. -/
def Track.ProblemsLackingExample (cfg : Config × Option ConfigError)
    (dirs : String → String)
    (fsys : String → Except FsError (List FNode))
    (compile : String → Except String (String → Bool)) :
    List String × Option QueryError :=
  match cfg.2 with
  | some e => ([], some (.config e))
  | none => pleLoop cfg dirs fsys compile [] cfg.1.Slugs

/-- The result of `os.Stat` on `exercises/<slug>`: whether the path is a
directory (`fi.Name()` equals the slug itself, being the base name of the
stat'ed path). -/
structure StatInfo where
  isDir : Bool
deriving DecidableEq, Repr

/-- The `t.dirs` map built by Go `NewTrack` when no fatal stat error
occurs: a declared slug maps to `<root>/exercises/<slug>` exactly when
that path stats successfully as a directory whose base name (the slug) is
not dot-prefixed; every other slug is absent, modelled as Go's zero-value
lookup `""`.  (`filepath.Join` on non-empty components inserts `/`.) -/
def trackDirs (root : String) (slugs : Finset String)
    (stat : String → Except FsError StatInfo) : String → String :=
  fun slug =>
    if slug ∈ slugs then
      match stat slug with
      | .ok fi =>
          if fi.isDir && isHiddenDir slug then root ++ "/exercises/" ++ slug
          else ""
      | .error _ => ""
    else ""

/-- Modelled `json.MarshalIndent` on a `Config` value: every field of the
struct (booleans, strings, string slices, exercise records decoded from
JSON) is a marshalable type, so marshalling never fails; the rendered
text itself is irrelevant to every claim and is summarised by `reprStr`.
-/
def goMarshalIndent (c : Config) : Except String String :=
  .ok (reprStr c)

/-- Go method `Track.HasValidConfig`: `c, err := t.Config()` followed by
`b, err := json.MarshalIndent(c, "", "  ")` — the second assignment
overwrites `err`, so the load error is discarded and the function returns
whether marshalling alone succeeded. -/
def Track.HasValidConfig (cfg : Config × Option ConfigError)
    (marshal : Config → Except String String) : Bool :=
  match marshal cfg.1 with
  | .ok _ => true
  | .error _ => false

/-- C9: for every well-formed manifest document, `Load` succeeds, and an
omitted `solution_pattern` yields `"[Ee]xample"`, an omitted `foregone`
yields the empty sequence, and an omitted `deprecated` yields the empty
sequence. -/
theorem load_defaults_optional_fields (file : String) (d : ConfigDoc) :
    (Load file (.doc d)).2 = none ∧
    (d.solutionPattern = none →
      (Load file (.doc d)).1.SolutionPattern = "[Ee]xample") ∧
    (d.foregone = none → (Load file (.doc d)).1.Foregone = []) ∧
    (d.deprecated = none → (Load file (.doc d)).1.Deprecated = []) := by
  refine ⟨rfl, fun h => ?_, fun h => ?_, fun h => ?_⟩ <;>
    simp [Load, unmarshalConfig, NewConfig, h]

/-- Witness for C9: the empty document (every field omitted) loads
without error and receives all three defaults. -/
theorem load_defaults_optional_fields_witness :
    (Load "config.json" (.doc {})).2 = none ∧
    (Load "config.json" (.doc {})).1.SolutionPattern = "[Ee]xample" ∧
    (Load "config.json" (.doc {})).1.Foregone = [] ∧
    (Load "config.json" (.doc {})).1.Deprecated = [] :=
  ⟨(load_defaults_optional_fields "config.json" {}).1,
   (load_defaults_optional_fields "config.json" {}).2.1 rfl,
   (load_defaults_optional_fields "config.json" {}).2.2.1 rfl,
   (load_defaults_optional_fields "config.json" {}).2.2.2 rfl⟩

/-- C7: when `exercises/` does not exist, `Dirs` returns the empty set
and no error; a stat failure other than "does not exist", or a failure
reading the directory, is returned as an error (with an empty set). -/
theorem dirs_missing_dir_and_errors (fs : ExercisesDirFs) :
    (fs.stat = .error .notExist → Track.Dirs fs = (∅, none)) ∧
    (∀ msg, fs.stat = .error (.other msg) →
      Track.Dirs fs = (∅, some (.fs (.other msg)))) ∧
    (∀ e, fs.stat = .ok () → fs.entries = .error e →
      Track.Dirs fs = (∅, some (.fs e))) := by
  exact ⟨fun h => by simp [Track.Dirs, h],
    fun msg h => by simp [Track.Dirs, h],
    fun e h h2 => by simp [Track.Dirs, h, h2]⟩

/-- Witness for C7: a concrete missing `exercises/` directory gives the
empty set and no error. -/
theorem dirs_missing_dir_and_errors_witness :
    Track.Dirs ⟨.error .notExist, .error .notExist⟩ = (∅, none) :=
  (dirs_missing_dir_and_errors ⟨.error .notExist, .error .notExist⟩).1 rfl

/-- C8: a dot-prefixed name never appears in the set returned by `Dirs`,
and during `NewTrack`'s slug-to-directory resolution a declared slug
whose `exercises/<slug>` directory is hidden resolves to no directory
(the zero value `""`). -/
theorem hidden_dirs_invisible (fs : ExercisesDirFs) (name : String)
    (root : String) (slugs : Finset String)
    (stat : String → Except FsError StatInfo) (slug : String)
    (hn : name.front = '.') (hs : slug.front = '.') :
    name ∉ (Track.Dirs fs).1 ∧ trackDirs root slugs stat slug = "" := by
  constructor
  · intro hmem
    unfold Track.Dirs at hmem
    rcases fs with ⟨stat0, entries0⟩
    rcases stat0 with e | u
    · by_cases he : e = FsError.notExist <;> simp [he] at hmem
    · rcases entries0 with e | infos
      · simp at hmem
      · simp only [List.mem_toFinset, List.mem_map] at hmem
        obtain ⟨i, hi, hin⟩ := hmem
        rw [List.mem_filter] at hi
        have hhid : isHiddenDir i.name = true := by
          have := hi.2
          simp only [Bool.and_eq_true] at this
          exact this.2
        rw [hin, isHiddenDir, hn] at hhid
        simp at hhid
  · unfold trackDirs
    by_cases hin : slug ∈ slugs
    · simp only [hin, if_true]
      rcases stat slug with e | fi
      · rfl
      · simp [isHiddenDir, hs]
    · simp [hin]

/-- Witness for C8: concrete instances — `.meta` as a directory entry is
not listed by `Dirs`, and the declared slug `.hidden` (whose directory
stats as a real directory) resolves to `""`. -/
theorem hidden_dirs_invisible_witness :
    ".meta" ∉ (Track.Dirs ⟨.ok (), .ok [⟨".meta", true⟩]⟩).1 ∧
    trackDirs "/track" {".hidden"} (fun _ => .ok ⟨true⟩) ".hidden" = "" :=
  hidden_dirs_invisible ⟨.ok (), .ok [⟨".meta", true⟩]⟩ ".meta" "/track"
    {".hidden"} (fun _ => .ok ⟨true⟩) ".hidden" rfl rfl

/-- C5: with a successfully loaded manifest and a successfully read
directory set `D`, `MissingProblems` is `Problems − D`, and
`UnconfiguredProblems` is `D − DeclaredSlugs`; both are empty when
`Problems = D = DeclaredSlugs`. -/
theorem set_difference_correctness (c : Config) (fs : ExercisesDirFs)
    (D : Finset String) (hdirs : Track.Dirs fs = (D, none)) :
    Track.MissingProblems (c, none) fs =
      ((Track.Problems (c, none)).1 \ D, none) ∧
    Track.UnconfiguredProblems (c, none) fs =
      (D \ (Track.Slugs (c, none)).1, none) ∧
    ((Track.Problems (c, none)).1 = D ∧ D = (Track.Slugs (c, none)).1 →
      (Track.MissingProblems (c, none) fs).1 = ∅ ∧
      (Track.UnconfiguredProblems (c, none) fs).1 = ∅) := by
  have hm : Track.MissingProblems (c, none) fs =
      ((Track.Problems (c, none)).1 \ D, none) := by
    rw [Track.MissingProblems, hdirs]
    simp only [Track.Problems, Finset.sdiff_eq_filter]
  have hu : Track.UnconfiguredProblems (c, none) fs =
      (D \ (Track.Slugs (c, none)).1, none) := by
    rw [Track.UnconfiguredProblems, hdirs]
    simp only [Track.Slugs, Finset.sdiff_eq_filter]
  refine ⟨hm, hu, fun ⟨h1, h2⟩ => ?_⟩
  rw [hm, hu, h1, ← h2]
  simp

/-- Witness for C5: the manifest with exercises `bob`, deprecated
`queen-attack` and foregone `trivial`, against the directory set
`{bob, queen-attack, trivial}`: nothing is missing, and only directories
absent from the declared set would be unconfigured. -/
theorem set_difference_correctness_witness :
    Track.MissingProblems
      ({ Exercises := [{ Slug := "bob" }], Deprecated := ["queen-attack"],
         Foregone := ["trivial"] }, none)
      ⟨.ok (), .ok [⟨"bob", true⟩, ⟨"queen-attack", true⟩, ⟨"trivial", true⟩]⟩ =
      (({"bob"} : Finset String) \ {"bob", "queen-attack", "trivial"}, none) ∧
    Track.UnconfiguredProblems
      ({ Exercises := [{ Slug := "bob" }], Deprecated := ["queen-attack"],
         Foregone := ["trivial"] }, none)
      ⟨.ok (), .ok [⟨"bob", true⟩, ⟨"queen-attack", true⟩, ⟨"trivial", true⟩]⟩ =
      (({"bob", "queen-attack", "trivial"} : Finset String) \
        {"bob", "queen-attack", "trivial"}, none) := by
  have h := set_difference_correctness
    ({ Exercises := [{ Slug := "bob" }], Deprecated := ["queen-attack"],
       Foregone := ["trivial"] })
    ⟨.ok (), .ok [⟨"bob", true⟩, ⟨"queen-attack", true⟩, ⟨"trivial", true⟩]⟩
    {"bob", "queen-attack", "trivial"} (by decide)
  exact ⟨by rw [h.1]; decide, by rw [h.2.1]; decide⟩

/-- C3 counterexample: in the manifest whose `exercises` sequence lists
the slug `apple` twice (and whose `deprecated` and `foregone` are empty),
`apple` appears in exactly one of the three sequences yet is returned by
`DuplicateSlugs`, because the count map adds up occurrences within a
single sequence too. -/
theorem duplicate_slugs_single_sequence_counterexample :
    "apple" ∈ ({ Exercises := [{ Slug := "apple" }, { Slug := "apple" }] } :
      Config).Slugs ∧
    "apple" ∉ ({ Exercises := [{ Slug := "apple" }, { Slug := "apple" }] } :
      Config).Deprecated ∧
    "apple" ∉ ({ Exercises := [{ Slug := "apple" }, { Slug := "apple" }] } :
      Config).Foregone ∧
    (Track.DuplicateSlugs
      (({ Exercises := [{ Slug := "apple" }, { Slug := "apple" }] } : Config),
        none)).1 = ["apple"] := by
  refine ⟨by decide, by decide, by decide, ?_⟩
  have h : (({ Exercises := [{ Slug := "apple" }, { Slug := "apple" }] } :
      Config).Slugs ++
      ({ Exercises := [{ Slug := "apple" }, { Slug := "apple" }] } :
      Config).Deprecated ++
      ({ Exercises := [{ Slug := "apple" }, { Slug := "apple" }] } :
      Config).Foregone).dedup.filter
      (fun s => 1 < (({ Exercises := [{ Slug := "apple" }, { Slug := "apple" }] } :
      Config).Slugs ++
      ({ Exercises := [{ Slug := "apple" }, { Slug := "apple" }] } :
      Config).Deprecated ++
      ({ Exercises := [{ Slug := "apple" }, { Slug := "apple" }] } :
      Config).Foregone).count s) = ["apple"] := by decide
  simp only [Track.DuplicateSlugs, h, List.mergeSort_singleton]

/-- C3 amended: on a successfully loaded manifest, a slug is in the
`DuplicateSlugs` result exactly when its combined occurrence count across
the exercise slugs, `deprecated` and `foregone` is at least two (so a
slug occurring exactly once never appears, and a slug in two or more of
the sequences always appears), and the result is sorted ascending. -/
theorem duplicate_slugs_count_spec (c : Config) (s : String) :
    (Track.DuplicateSlugs (c, none)).2 = none ∧
    (s ∈ (Track.DuplicateSlugs (c, none)).1 ↔
      2 ≤ (c.Slugs ++ c.Deprecated ++ c.Foregone).count s) ∧
    (Track.DuplicateSlugs (c, none)).1.Sorted (· ≤ ·) := by
  refine ⟨rfl, ?_, ?_⟩
  · simp only [Track.DuplicateSlugs, List.mem_mergeSort, List.mem_filter,
      List.mem_dedup, decide_eq_true_eq]
    constructor
    · rintro ⟨_, h⟩
      omega
    · intro h
      exact ⟨List.count_pos_iff.mp (by omega), by omega⟩
  · have h := List.sorted_mergeSort'
      ((c.Slugs ++ c.Deprecated ++ c.Foregone).dedup.filter
        (fun s => 1 < (c.Slugs ++ c.Deprecated ++ c.Foregone).count s))
    simpa [Track.DuplicateSlugs, List.Sorted] using h

/-- C10: the name `"exercises"` is filtered out of the `Dirs` set even as
a real non-hidden subdirectory of `exercises/`; hence a configured slug
`exercises` backed by such a directory is still reported by
`MissingProblems` and never by `UnconfiguredProblems` or
`ForegoneViolations`. -/
theorem exercises_subdir_excluded (c : Config) (fs : ExercisesDirFs)
    (D : Finset String) (hdirs : Track.Dirs fs = (D, none))
    (hslug : "exercises" ∈ c.Slugs) :
    "exercises" ∉ D ∧
    "exercises" ∈ (Track.MissingProblems (c, none) fs).1 ∧
    "exercises" ∉ (Track.UnconfiguredProblems (c, none) fs).1 ∧
    "exercises" ∉ (Track.ForegoneViolations (c, none) fs).1 := by
  have hD : "exercises" ∉ (Track.Dirs fs).1 := by
    unfold Track.Dirs
    rcases fs with ⟨st, en⟩
    rcases st with e | u
    · by_cases he : e = FsError.notExist <;> simp [he]
    · rcases en with e | infos
      · simp
      · simp only [List.mem_toFinset, List.mem_map]
        rintro ⟨i, hi, hname⟩
        rw [List.mem_filter] at hi
        have h2 := hi.2
        simp only [Bool.and_eq_true, decide_eq_true_eq] at h2
        exact h2.1.2 hname
  rw [hdirs] at hD
  have hm : Track.MissingProblems (c, none) fs =
      (c.Slugs.toFinset.filter (fun p => p ∉ D), none) := by
    rw [Track.MissingProblems, hdirs]
    simp only [Track.Problems]
  have hu : Track.UnconfiguredProblems (c, none) fs =
      (D.filter (fun d =>
        d ∉ (c.Slugs ++ c.Deprecated ++ c.Foregone).toFinset), none) := by
    rw [Track.UnconfiguredProblems, hdirs]
    simp only [Track.Slugs]
  have hf : Track.ForegoneViolations (c, none) fs =
      (c.Foregone.filter (fun p => p ∈ D), none) := by
    rw [Track.ForegoneViolations, hdirs]
  refine ⟨hD, ?_, ?_, ?_⟩
  · rw [hm]
    simp [Finset.mem_filter, hslug, hD]
  · rw [hu]
    intro hmem
    exact hD (Finset.mem_of_mem_filter _ hmem)
  · rw [hf]
    intro hmem
    rw [List.mem_filter] at hmem
    simp only [decide_eq_true_eq] at hmem
    exact hD hmem.2

/-- Witness for C10: the config declaring the exercise slug `exercises`,
with `exercises/exercises` present on disk as a non-hidden directory. -/
theorem exercises_subdir_excluded_witness :
    "exercises" ∉ (∅ : Finset String) ∧
    "exercises" ∈ (Track.MissingProblems
      (({ Exercises := [{ Slug := "exercises" }] } : Config), none)
      ⟨.ok (), .ok [⟨"exercises", true⟩]⟩).1 ∧
    "exercises" ∉ (Track.UnconfiguredProblems
      (({ Exercises := [{ Slug := "exercises" }] } : Config), none)
      ⟨.ok (), .ok [⟨"exercises", true⟩]⟩).1 ∧
    "exercises" ∉ (Track.ForegoneViolations
      (({ Exercises := [{ Slug := "exercises" }] } : Config), none)
      ⟨.ok (), .ok [⟨"exercises", true⟩]⟩).1 :=
  exercises_subdir_excluded { Exercises := [{ Slug := "exercises" }] }
    ⟨.ok (), .ok [⟨"exercises", true⟩]⟩ ∅ (by decide) (by decide)

/-- Helper predicate: slug `q` gets flagged by the example check — it has
a resolved directory and no file in its (readable) tree matches. -/
def flaggedSlug (dirs : String → String)
    (fsys : String → Except FsError (List FNode)) (find : String → Bool)
    (q : String) : Bool :=
  dirs q ≠ "" &&
    match fsys (dirs q) with
    | .ok entries => !(findAllFiles (dirs q) entries).any find
    | .error _ => false

/-- Helper: when the pattern compiles and every visited directory is
readable, the `ProblemsLackingExample` loop appends exactly the flagged
slugs and reports no error. -/
theorem pleLoop_ok (c : Config) (dirs : String → String)
    (fsys : String → Except FsError (List FNode))
    (compile : String → Except String (String → Bool)) (find : String → Bool)
    (hc : compile c.SolutionPattern = .ok find)
    (l : List String) (issues : List String)
    (h : ∀ q ∈ l, dirs q ≠ "" → (fsys (dirs q)).isOk = true) :
    pleLoop (c, none) dirs fsys compile issues l =
      (issues ++ l.filter (flaggedSlug dirs fsys find), none) := by
  induction l generalizing issues with
  | nil => simp [pleLoop]
  | cons p rest ih =>
    have hrest : ∀ q ∈ rest, dirs q ≠ "" → (fsys (dirs q)).isOk = true :=
      fun q hq => h q (List.mem_cons_of_mem _ hq)
    by_cases hp : dirs p = ""
    · rw [pleLoop, List.filter_cons]
      have hflag : flaggedSlug dirs fsys find p = false := by
        simp [flaggedSlug, hp]
      simp [hp, hflag, ih _ hrest]
    · have hok := h p (List.mem_cons_self _ _) hp
      rcases hfe : fsys (dirs p) with e | entries
      · rw [hfe] at hok
        simp [Except.isOk, Except.toBool] at hok
      · rw [pleLoop, List.filter_cons]
        by_cases hany : (findAllFiles (dirs p) entries).any find = true
        · have hflag : flaggedSlug dirs fsys find p = false := by
            simp [flaggedSlug, hfe, hany]
          simp [hp, hfe, Track.hasExampleFile, hc, hany, hflag, ih _ hrest]
        · have hflag : flaggedSlug dirs fsys find p = true := by
            simp [flaggedSlug, hp, hfe]
            simpa using hany
          simp [hp, hfe, Track.hasExampleFile, hc, hany, hflag, ih _ hrest]

/-- C6: on a loaded manifest with a compiling pattern and readable
exercise directories, a configured exercise slug with a resolved
directory is flagged by `ProblemsLackingExample` exactly when no file in
the recursive file tree of that directory matches the compiled pattern —
the matcher is applied to full file paths, unanchored. -/
theorem example_detection (c : Config) (dirs : String → String)
    (fsys : String → Except FsError (List FNode))
    (compile : String → Except String (String → Bool)) (find : String → Bool)
    (p : String) (entries : List FNode)
    (hc : compile c.SolutionPattern = .ok find)
    (hfs : ∀ q ∈ c.Slugs, dirs q ≠ "" → (fsys (dirs q)).isOk = true)
    (hp : p ∈ c.Slugs) (hdir : dirs p ≠ "")
    (hent : fsys (dirs p) = .ok entries) :
    p ∈ (Track.ProblemsLackingExample (c, none) dirs fsys compile).1 ↔
      ¬ ∃ f ∈ findAllFiles (dirs p) entries, find f = true := by
  rw [Track.ProblemsLackingExample,
    pleLoop_ok c dirs fsys compile find hc c.Slugs [] hfs]
  have hflag : flaggedSlug dirs fsys find p =
      !(findAllFiles (dirs p) entries).any find := by
    simp [flaggedSlug, hent, hdir]
  simp only [List.nil_append, List.mem_filter, hp, true_and, hflag,
    Bool.not_eq_true', List.any_eq_false]
  constructor
  · rintro h ⟨f, hf, hfind⟩
    simp [h f hf] at hfind
  · intro h f hf
    cases hfind : find f
    · simp
    · exact absurd ⟨f, hf, hfind⟩ h

/-- Witness for C6: under the default pattern, the exercise `bob` whose
directory holds only `solution.go` is flagged, while the same exercise
with `example_solution.go` inside a nested subdirectory is not. -/
theorem example_detection_witness :
    "bob" ∈ (Track.ProblemsLackingExample
      (({ Exercises := [{ Slug := "bob" }],
          SolutionPattern := "[Ee]xample" } : Config), none)
      (fun q => if q = "bob" then "/track/exercises/bob" else "")
      (fun q => if q = "/track/exercises/bob" then
          .ok [.file "solution.go"] else .error .notExist)
      goCompile).1 ∧
    "bob" ∉ (Track.ProblemsLackingExample
      (({ Exercises := [{ Slug := "bob" }],
          SolutionPattern := "[Ee]xample" } : Config), none)
      (fun q => if q = "bob" then "/track/exercises/bob" else "")
      (fun q => if q = "/track/exercises/bob" then
          .ok [.dir "sub" [.file "example_solution.go"]] else .error .notExist)
      goCompile).1 := by
  constructor
  · refine (example_detection
      { Exercises := [{ Slug := "bob" }], SolutionPattern := "[Ee]xample" }
      (fun q => if q = "bob" then "/track/exercises/bob" else "")
      (fun q => if q = "/track/exercises/bob" then
          .ok [.file "solution.go"] else .error .notExist)
      goCompile findEeExample "bob" [.file "solution.go"]
      rfl (by decide) (by decide) (by decide) rfl).mpr ?_
    have hno : findEeExample "/track/exercises/bob/solution.go" = false := by
      decide
    simp [findAllFiles, hno]
  · intro hmem
    refine (example_detection
      { Exercises := [{ Slug := "bob" }], SolutionPattern := "[Ee]xample" }
      (fun q => if q = "bob" then "/track/exercises/bob" else "")
      (fun q => if q = "/track/exercises/bob" then
          .ok [.dir "sub" [.file "example_solution.go"]] else .error .notExist)
      goCompile findEeExample "bob" [.dir "sub" [.file "example_solution.go"]]
      rfl (by decide) (by decide) (by decide) rfl).mp hmem
      ⟨"/track/exercises/bob/sub/example_solution.go", ?_, by decide⟩
    simp [findAllFiles]

/-- C4 amended: `MissingProblems`, `UnconfiguredProblems`,
`ForegoneViolations` and `DuplicateSlugs` return an empty result sequence
whenever they return an error, and `ProblemsLackingExample` returns an
empty sequence on a config-load error; however (see the counterexample)
`ProblemsLackingExample` may return non-empty partial results alongside a
file-listing error. -/
theorem query_error_empty_results (cfg : Config × Option ConfigError)
    (fs : ExercisesDirFs) (dirs : String → String)
    (fsys : String → Except FsError (List FNode))
    (compile : String → Except String (String → Bool)) (e : ConfigError) :
    ((Track.MissingProblems cfg fs).2 ≠ none →
      (Track.MissingProblems cfg fs).1 = ∅) ∧
    ((Track.UnconfiguredProblems cfg fs).2 ≠ none →
      (Track.UnconfiguredProblems cfg fs).1 = ∅) ∧
    ((Track.ForegoneViolations cfg fs).2 ≠ none →
      (Track.ForegoneViolations cfg fs).1 = []) ∧
    ((Track.DuplicateSlugs cfg).2 ≠ none → (Track.DuplicateSlugs cfg).1 = []) ∧
    (cfg.2 = some e →
      Track.ProblemsLackingExample cfg dirs fsys compile =
        ([], some (.config e))) := by
  obtain ⟨c, oe⟩ := cfg
  rcases hD : Track.Dirs fs with ⟨D, _ | qe⟩
  · rcases oe with _ | ce
    · exact ⟨by simp [Track.MissingProblems, hD, Track.Problems],
        by simp [Track.UnconfiguredProblems, hD, Track.Slugs],
        by simp [Track.ForegoneViolations, hD],
        by simp [Track.DuplicateSlugs],
        by simp⟩
    · exact ⟨by simp [Track.MissingProblems, hD, Track.Problems],
        by simp [Track.UnconfiguredProblems, hD, Track.Slugs],
        by simp [Track.ForegoneViolations, hD],
        by simp [Track.DuplicateSlugs],
        by intro h; rw [Track.ProblemsLackingExample]; simp_all⟩
  · rcases oe with _ | ce
    · exact ⟨by simp [Track.MissingProblems, hD],
        by simp [Track.UnconfiguredProblems, hD],
        by simp [Track.ForegoneViolations, hD],
        by simp [Track.DuplicateSlugs],
        by simp⟩
    · exact ⟨by simp [Track.MissingProblems, hD],
        by simp [Track.UnconfiguredProblems, hD],
        by simp [Track.ForegoneViolations, hD],
        by simp [Track.DuplicateSlugs],
        by intro h; rw [Track.ProblemsLackingExample]; simp_all⟩

/-- Witness for C4: concrete failing reads — a config read error plus a
`permission denied` on `exercises/` — give empty results from every
query. -/
theorem query_error_empty_results_witness :
    (Track.MissingProblems (NewConfig, some (.readError (.other "io"))) ⟨.error (.other "denied"), .error (.other "denied")⟩).1 = ∅ ∧
    (Track.UnconfiguredProblems (NewConfig, some (.readError (.other "io"))) ⟨.error (.other "denied"), .error (.other "denied")⟩).1 = ∅ ∧
    (Track.ForegoneViolations (NewConfig, some (.readError (.other "io"))) ⟨.error (.other "denied"), .error (.other "denied")⟩).1 = [] ∧
    (Track.DuplicateSlugs (NewConfig, some (.readError (.other "io")))).1 = [] ∧
    Track.ProblemsLackingExample (NewConfig, some (.readError (.other "io")))
      (fun _ => "") (fun _ => .ok []) (fun _ => .error "x") =
      ([], some (.config (.readError (.other "io")))) := by
  have h := query_error_empty_results
    (NewConfig, some (.readError (.other "io")))
    ⟨.error (.other "denied"), .error (.other "denied")⟩
    (fun _ => "") (fun _ => .ok []) (fun _ => .error "x")
    (.readError (.other "io"))
  exact ⟨h.1 (by decide), h.2.1 (by decide), h.2.2.1 (by decide),
    h.2.2.2.1 (by decide), h.2.2.2.2 rfl⟩

/-- C4 counterexample: with exercises `alpha` and `beta`, where
`alpha`'s (empty) directory lists fine and lacks an example while
listing `beta`'s directory fails, `ProblemsLackingExample` returns the
non-empty partial result `["alpha"]` alongside the error — refuting "if
the query returns an error then its accompanying result sequence is
empty". -/
theorem query_error_partial_results_counterexample :
    Track.ProblemsLackingExample
      (({ Exercises := [{ Slug := "alpha" }, { Slug := "beta" }],
          SolutionPattern := "[Ee]xample" } : Config), none)
      (fun q => if q = "alpha" then "/t/exercises/alpha"
        else if q = "beta" then "/t/exercises/beta" else "")
      (fun q => if q = "/t/exercises/alpha" then .ok []
        else .error (.other "permission denied"))
      goCompile =
      (["alpha"], some (.fs (.other "permission denied"))) := by
  rw [Track.ProblemsLackingExample]
  simp [pleLoop, Track.hasExampleFile, goCompile, findAllFiles, Config.Slugs]

/-- C2: the code contradicts the claim — with the invalid pattern `[`
(whose compilation fails, first conjunct) and the exercise `bob` whose
directory exists and even contains `example.go`, `ProblemsLackingExample`
returns no error at all: the error from `hasExampleFile` is assigned but
never checked, so the pattern-compilation failure is swallowed and `bob`
is flagged instead. -/
theorem pattern_error_swallowed :
    (goCompile ({ Exercises := [{ Slug := "bob" }], SolutionPattern := "[" } :
      Config).SolutionPattern).isOk = false ∧
    Track.ProblemsLackingExample
      (({ Exercises := [{ Slug := "bob" }], SolutionPattern := "[" } :
        Config), none)
      (fun q => if q = "bob" then "/t/exercises/bob" else "")
      (fun q => if q = "/t/exercises/bob" then .ok [.file "example.go"]
        else .error .notExist)
      goCompile = (["bob"], none) := by
  refine ⟨by decide, ?_⟩
  rw [Track.ProblemsLackingExample]
  simp [pleLoop, Track.hasExampleFile, goCompile, findAllFiles, Config.Slugs]

/-- C1: the code contradicts the claim — `HasValidConfig` returns true
for every load outcome (first conjunct), because `c, err := t.Config()`
is immediately followed by `b, err := json.MarshalIndent(c, ...)`, which
overwrites the load error; in particular a track whose `config.json`
fails to parse (second conjunct) is still reported valid (third
conjunct). -/
theorem invalid_config_reported_valid :
    (∀ cfg : Config × Option ConfigError,
      Track.HasValidConfig cfg goMarshalIndent = true) ∧
    (Load "/track/config.json" (.malformed "unexpected end of JSON input")).2 =
      some (.parseError "/track/config.json" "unexpected end of JSON input") ∧
    Track.HasValidConfig
      (Load "/track/config.json" (.malformed "unexpected end of JSON input"))
      goMarshalIndent = true :=
  ⟨fun _ => rfl, rfl, rfl⟩
